import Mathlib

/-!
Shallow embedding of the item-management controller of `src/src/App.tsx`
(Concentrix CRUD challenge).  The React component state is modelled as an
explicit `AppState` record; each event handler (`addItem`, `updateItem`,
`deleteItem`, `startEdit`, `clearForm`, the input `onChange` handlers) becomes
a pure state-transformer, and the render-time derived view (lines 139-160 of
the source: `filteredItems`, `totalPages`, `currentItems`) becomes a pure
function of the state.

Modelling choices, all visible in the definitions below:
* Timestamps: the source stores `new Date().toString()` and re-parses it with
  `new Date(s).getTime()` for sorting.  We model a timestamp directly as the
  `Nat` time value, passed to each mutating handler as a `now` argument.
* `localeCompare` is environment-dependent; the view takes the comparator
  `lc : String → String → Int` as a parameter.
* JavaScript `Array.prototype.sort` is stable (ECMA-262) and, for a
  consistent comparator, sortedness plus stability determines the output
  uniquely; we model it with a stable insertion sort on the comparator.
  `Array.prototype.filter` returns a fresh array, so the in-place sort of
  `filteredItems` never touches the `items` state (see `computeRender`).
* `Math.ceil(len / 10)` on JavaScript numbers is modelled as `Int.ceil` of
  the exact rational `len / 10` (the quotient is exact in binary floating
  point for all realistic lengths).
* JS truthiness: `filterPriority` is `''` or a priority, modelled as
  `Option Priority`; `searchName ? … : true` keeps everything when the
  search string is empty.
-/

namespace CrudApp

/-- Priority enum of the source: `"baixa" | "média" | "alta"`. -/
inductive Priority where
  | baixa
  | media
  | alta
deriving DecidableEq, Repr

/-- The `Item` record of the source (timestamps as `Nat` time values;
`data_modificacao` is optional, absent until the first update). -/
structure Item where
  id : Nat
  nome : String
  descricao : String
  data_criacao : Nat
  data_modificacao : Option Nat
  prioridade : Priority
deriving DecidableEq, Repr

/-- The form context of `FormProvider`: field values, the edit target
(`editId`) and the `isValid` flag. -/
structure FormState where
  nome : String
  descricao : String
  prioridade : Priority
  editId : Option Nat
  isValid : Bool
deriving DecidableEq, Repr

/-- `sortOrder ∈ {asc, desc}`. -/
inductive SortOrder where
  | asc
  | desc
deriving DecidableEq, Repr

/-- `activeFilter ∈ {priority, name, date}`. -/
inductive ActiveFilter where
  | priority
  | name
  | date
deriving DecidableEq, Repr

/-- The component state of `App` together with the form context. -/
structure AppState where
  items : List Item
  form : FormState
  currentPage : Nat
  filterPriority : Option Priority
  sortOrder : SortOrder
  activeFilter : ActiveFilter
  searchName : String
  showModal : Bool
deriving DecidableEq, Repr

/-- The boolean computed inside `validate()`:
`nome.length >= 3 && descricao.length >= 3` (no trimming). -/
def validateResult (f : FormState) : Bool :=
  decide (3 ≤ f.nome.length) && decide (3 ≤ f.descricao.length)

/-- The side effect of calling `validate()`: `setIsValid(valid)`. -/
def runValidate (s : AppState) : AppState :=
  { s with form := { s.form with isValid := validateResult s.form } }

/-- `clearForm()`: resets the field values, the edit target and closes the
modal.  It does not touch `isValid`. -/
def clearForm (s : AppState) : AppState :=
  { s with
    form := { s.form with
              nome := "", descricao := "", prioridade := Priority.baixa,
              editId := none },
    showModal := false }

/-- The item literal built inside `addItem`:
`{ id: items.length + 1, nome, descricao, data_criacao: now, prioridade }`
(no `data_modificacao` field, hence `none`). -/
def newItemOf (now : Nat) (s : AppState) : Item :=
  { id := s.items.length + 1
    nome := s.form.nome
    descricao := s.form.descricao
    data_criacao := now
    data_modificacao := none
    prioridade := s.form.prioridade }

/-- `addItem()`: `if (!validate()) return;` then append the new item and
clear the form. -/
def addItem (now : Nat) (s : AppState) : AppState :=
  let s1 := runValidate s
  if validateResult s.form then
    clearForm { s1 with items := s1.items ++ [newItemOf now s1] }
  else s1

/-- The per-item function of `updateItem`'s `map`: a matching id gets the
form's fields and `data_modificacao = now`, everything else is untouched. -/
def applyEdit (now : Nat) (f : FormState) (e : Nat) (it : Item) : Item :=
  if it.id = e then
    { it with nome := f.nome, descricao := f.descricao,
              prioridade := f.prioridade, data_modificacao := some now }
  else it

/-- `updateItem()`: `if (!validate() || editId === null) return;` then map
`applyEdit` over the collection and clear the form.  `validate()` runs (and
sets `isValid`) before the `editId` check. -/
def updateItem (now : Nat) (s : AppState) : AppState :=
  let s1 := runValidate s
  match validateResult s.form, s.form.editId with
  | true, some e =>
      clearForm { s1 with items := s1.items.map (applyEdit now s.form e) }
  | _, _ => s1

/-- `deleteItem(id)`: `items.filter(item => item.id !== id)`. -/
def deleteItem (s : AppState) (i : Nat) : AppState :=
  { s with items := s.items.filter (fun it => it.id != i) }

/-- `startEdit(item)`: copies the item into the form, sets `editId` and opens
the modal. -/
def startEdit (s : AppState) (it : Item) : AppState :=
  { s with
    form := { s.form with
              nome := it.nome, descricao := it.descricao,
              prioridade := it.prioridade, editId := some it.id },
    showModal := true }

/-- The `onChange` handler of the name input: `setNome(v)`. -/
def inputNome (v : String) (s : AppState) : AppState :=
  { s with form := { s.form with nome := v } }

/-- The `onChange` handler of the description input: `setDescricao(v)`. -/
def inputDescricao (v : String) (s : AppState) : AppState :=
  { s with form := { s.form with descricao := v } }

/-- The `onChange` handler of the priority select: `setPrioridade(p)`. -/
def inputPrioridade (p : Priority) (s : AppState) : AppState :=
  { s with form := { s.form with prioridade := p } }

/-- Character-list matching at the head: `matchChars ndl hay` is true when
`ndl` occurs at the start of `hay`. -/
def matchChars : List Char → List Char → Bool
  | [], _ => true
  | _ :: _, [] => false
  | c :: cs, d :: ds => c == d && matchChars cs ds

/-- `hasSub ndl hay`: `ndl` occurs contiguously somewhere in `hay`. -/
def hasSub (ndl : List Char) : List Char → Bool
  | [] => matchChars ndl []
  | d :: ds => matchChars ndl (d :: ds) || hasSub ndl ds

/-- JavaScript `String.prototype.includes`. -/
def strIncludes (hay ndl : String) : Bool :=
  hasSub ndl.data hay.data

/-- JavaScript `String.prototype.toLowerCase`, modelled per character (the
source only ever compares the lowered strings). -/
def toLowerJS (s : String) : String :=
  String.mk (s.data.map Char.toLower)

/-- First conjunct of the filter at line 143:
`filterPriority ? item.prioridade === filterPriority : true`. -/
def priorityPred (fp : Option Priority) (it : Item) : Bool :=
  match fp with
  | some p => it.prioridade == p
  | none => true

/-- Second conjunct of the filter at line 144:
`searchName ? item.nome.toLowerCase().includes(searchName.toLowerCase()) : true`. -/
def namePred (q : String) (it : Item) : Bool :=
  if q = "" then true else strIncludes (toLowerJS it.nome) (toLowerJS q)

/-- The whole predicate of `items.filter` at lines 142-145; note that BOTH
conjuncts are applied on every render, whatever `activeFilter` is. -/
def combinedPred (s : AppState) (it : Item) : Bool :=
  priorityPred s.filterPriority it && namePred s.searchName it

/-- Comparator of the name sort: `a.nome.localeCompare(b.nome)` with `lc`
standing for the environment's `localeCompare`. -/
def nameCmp (lc : String → String → Int) (a b : Item) : Int :=
  lc a.nome b.nome

/-- Comparator of the date sort (line 152-156): difference of the parsed
creation times, direction given by `sortOrder`. -/
def dateCmp (ord : SortOrder) (a b : Item) : Int :=
  match ord with
  | SortOrder.asc => (a.data_criacao : Int) - (b.data_criacao : Int)
  | SortOrder.desc => (b.data_criacao : Int) - (a.data_criacao : Int)

/-- Stable insertion into a list already arranged by `cmp`: `x` goes before
the first element it does not strictly follow, so it lands before every
element comparing equal to it that was originally behind it. -/
def insertCmp (cmp : Item → Item → Int) (x : Item) : List Item → List Item
  | [] => [x]
  | y :: ys => if cmp x y ≤ 0 then x :: y :: ys else y :: insertCmp cmp x ys

/-- Stable sort by comparator: model of `Array.prototype.sort(cmp)` (stable
per ECMA-262; for a consistent comparator the stable sorted output is
unique, so the choice of stable algorithm is irrelevant). -/
def sortCmp (cmp : Item → Item → Int) : List Item → List Item
  | [] => []
  | x :: xs => insertCmp cmp x (sortCmp cmp xs)

/-- Lines 142-157: filter with `combinedPred`, then sort only in the `name`
or `date` modes (`priority` mode leaves insertion order). -/
def filteredItems (lc : String → String → Int) (s : AppState) : List Item :=
  let fi := s.items.filter (combinedPred s)
  let fi := if s.activeFilter = ActiveFilter.name then sortCmp (nameCmp lc) fi else fi
  let fi := if s.activeFilter = ActiveFilter.date then sortCmp (dateCmp s.sortOrder) fi else fi
  fi

/-- Line 159: `Math.ceil(filteredItems.length / itemsPerPage)`. -/
def totalPages (lc : String → String → Int) (s : AppState) : Int :=
  Int.ceil (((filteredItems lc s).length : ℚ) / 10)

/-- `Array.prototype.slice(first, last)` for the in-range indices used by the
component (`first = currentPage*10 - 10 ≥ 0`, `last = currentPage*10`). -/
def sliceJS (l : List Item) (first last : Nat) : List Item :=
  (l.drop first).take (last - first)

/-- Line 160: `filteredItems.slice(indexOfFirstItem, indexOfLastItem)`. -/
def currentItems (lc : String → String → Int) (s : AppState) : List Item :=
  sliceJS (filteredItems lc s) (s.currentPage * 10 - 10) (s.currentPage * 10)

/-- The whole render-time computation (lines 139-160) as one step: it reads
the state, builds the fresh filtered array, sorts that fresh array in place,
computes `totalPages` and the page slice, and performs no state update
(no `set…` call occurs in the render body), so the returned state is the
input state. -/
def computeRender (lc : String → String → Int) (s : AppState) :
    AppState × List Item × Int :=
  (s, currentItems lc s, totalPages lc s)

/-! Theorems about the claims. -/

/-- Claim C10 (confirmed): resetting the form (`clearForm`, reached after a
successful add/update or the modal's cancel button) clears `nome`,
`descricao`, `prioridade` and `editId` but never changes `isValid`; `isValid`
changes only through `validate()`, which runs exactly inside
`addItem`/`updateItem` — the input handlers, `deleteItem` and `startEdit`
all preserve it, so a validation-failure message persists across a cancel. -/
theorem clearForm_resets_fields_keeps_isValid (s : AppState) (now i : Nat)
    (it : Item) (v : String) (p : Priority) :
    ((clearForm s).form.nome = "" ∧ (clearForm s).form.descricao = "" ∧
     (clearForm s).form.prioridade = Priority.baixa ∧
     (clearForm s).form.editId = none ∧
     (clearForm s).form.isValid = s.form.isValid) ∧
    (deleteItem s i).form.isValid = s.form.isValid ∧
    (startEdit s it).form.isValid = s.form.isValid ∧
    (inputNome v s).form.isValid = s.form.isValid ∧
    (inputDescricao v s).form.isValid = s.form.isValid ∧
    (inputPrioridade p s).form.isValid = s.form.isValid ∧
    (addItem now s).form.isValid = validateResult s.form ∧
    (updateItem now s).form.isValid = validateResult s.form := by
  refine ⟨⟨rfl, rfl, rfl, rfl, rfl⟩, rfl, rfl, rfl, rfl, rfl, ?_, ?_⟩
  · unfold addItem
    split <;> simp [clearForm, runValidate]
  · unfold updateItem
    split <;> simp [clearForm, runValidate]

/-- Claim C6 (confirmed): `delete(id)` is idempotent, and deleting an id that
is absent from the collection is a silent no-op leaving the state exactly as
it was. -/
theorem deleteItem_idempotent_and_absent_noop (s : AppState) (i : Nat) :
    deleteItem (deleteItem s i) i = deleteItem s i ∧
    ((∀ it ∈ s.items, it.id ≠ i) → deleteItem s i = s) := by
  obtain ⟨itms, fm, cp, fp, so, af, sn, sm⟩ := s
  constructor
  · simp [deleteItem, List.filter_filter]
  · intro h
    simp only [deleteItem]
    have : itms.filter (fun it => it.id != i) = itms := by
      refine List.filter_eq_self.mpr ?_
      intro a ha
      simpa using h a ha
    simp [this]

/-- Claim C8 (confirmed): the render-time view computation (filter, sort,
paginate; lines 139-160 of the source) never mutates the stored collection:
`filter` returns a fresh array and the in-place `sort` runs on that fresh
array, and no state setter is invoked, so the state — in particular `items`
and its order — is identical before and after computing the view. -/
theorem computeRender_leaves_state_unchanged (lc : String → String → Int)
    (s : AppState) :
    (computeRender lc s).1 = s ∧ (computeRender lc s).1.items = s.items :=
  ⟨rfl, rfl⟩

/-- Concrete state for the C1 counterexample: a valid form (both fields of
length ≥ 3) whose `editId` is `null`. -/
def exSt1 : AppState :=
  { items := [{ id := 1, nome := "Task", descricao := "desc", data_criacao := 0,
                data_modificacao := none, prioridade := Priority.baixa }]
    form := { nome := "abc", descricao := "defg", prioridade := Priority.baixa,
              editId := none, isValid := false }
    currentPage := 1, filterPriority := none, sortOrder := SortOrder.asc,
    activeFilter := ActiveFilter.priority, searchName := "", showModal := false }

/-- Claim C1 (counterexample): with name `"abc"` and description `"defg"`
(both of length ≥ 3) but `editId = null`, `updateItem` does not succeed: the
collection is unchanged and the form fields are not reset (only `isValid` is
set to `true` by the `validate()` call), refuting "update succeeds iff both
name and description have length ≥ 3". -/
theorem updateItem_valid_but_editId_none_is_noop :
    (3 ≤ exSt1.form.nome.length ∧ 3 ≤ exSt1.form.descricao.length) ∧
    updateItem 5 exSt1 = { exSt1 with form := { exSt1.form with isValid := true } } ∧
    (updateItem 5 exSt1).form.nome = "abc" ∧
    (updateItem 5 exSt1).items = exSt1.items := by
  refine ⟨by decide, by decide, by decide, by decide⟩

/-- Claim C1 (amended, confirmed): `addItem` succeeds iff both name and
description have length ≥ 3; `updateItem` succeeds iff both lengths are ≥ 3
AND `editId` is present.  When either length is below 3 the operation is a
no-op — the collection is unchanged and the form fields are not reset — and
`isValid` becomes false; a valid `updateItem` with `editId` absent also
changes nothing and resets nothing, but sets `isValid` to true. -/
theorem addItem_updateItem_success_iff (now : Nat) (s : AppState) :
    ((addItem now s).items =
      (if validateResult s.form = true then s.items ++ [newItemOf now s]
       else s.items)) ∧
    ((addItem now s).form =
      (if validateResult s.form = true then
        { nome := "", descricao := "", prioridade := Priority.baixa,
          editId := none, isValid := true }
       else { s.form with isValid := false })) ∧
    ((updateItem now s).items =
      (match s.form.editId with
       | none => s.items
       | some e =>
           if validateResult s.form = true
           then s.items.map (applyEdit now s.form e) else s.items)) ∧
    ((updateItem now s).form =
      (if validateResult s.form = true then
        (match s.form.editId with
         | none => { s.form with isValid := true }
         | some _ =>
             { nome := "", descricao := "", prioridade := Priority.baixa,
               editId := none, isValid := true })
       else { s.form with isValid := false })) := by
  by_cases h : validateResult s.form = true
  · cases he : s.form.editId <;>
      simp [addItem, updateItem, h, he, clearForm, runValidate, newItemOf]
  · have hf : validateResult s.form = false := by simpa using h
    cases he : s.form.editId <;>
      simp [addItem, updateItem, hf, he, clearForm, runValidate, newItemOf]

/-- One user-level "fill the form and click add" step per input tuple
`(nome, descricao, prioridade, now)`, iterated left to right. -/
def runAdds : List (String × String × Priority × Nat) → AppState → AppState
  | [], s => s
  | (n, d, p, t) :: rest, s =>
      runAdds rest (addItem t (inputPrioridade p (inputDescricao d (inputNome n s))))

/-- The items a successful run of adds appends when the collection already
holds `base` items. -/
def addedItems (base : Nat) : List (String × String × Priority × Nat) → List Item
  | [] => []
  | (n, d, p, t) :: rest =>
      { id := base + 1, nome := n, descricao := d, data_criacao := t,
        data_modificacao := none, prioridade := p } :: addedItems (base + 1) rest

theorem addedItems_length (inputs : List (String × String × Priority × Nat)) :
    ∀ base, (addedItems base inputs).length = inputs.length := by
  induction inputs with
  | nil => intro base; rfl
  | cons x rest ih =>
      obtain ⟨n, d, p, t⟩ := x
      intro base
      simp [addedItems, ih]

theorem addedItems_getElem? (inputs : List (String × String × Priority × Nat)) :
    ∀ base k it, (addedItems base inputs)[k]? = some it →
      it.id = base + k + 1 ∧ it.data_modificacao = none := by
  induction inputs with
  | nil => intro base k it h; simp [addedItems] at h
  | cons x rest ih =>
      obtain ⟨n, d, p, t⟩ := x
      intro base k it h
      cases k with
      | zero =>
          simp [addedItems] at h
          simp [← h]
      | succ k' =>
          have h' : (addedItems (base + 1) rest)[k']? = some it := by
            simpa [addedItems] using h
          have := ih (base + 1) k' it h'
          refine ⟨?_, this.2⟩
          rw [this.1]
          omega

theorem runAdds_items (inputs : List (String × String × Priority × Nat)) :
    ∀ s : AppState, (∀ x ∈ inputs, 3 ≤ x.1.length ∧ 3 ≤ x.2.1.length) →
      (runAdds inputs s).items = s.items ++ addedItems s.items.length inputs := by
  induction inputs with
  | nil => intro s _; simp [runAdds, addedItems]
  | cons x rest ih =>
      obtain ⟨n, d, p, t⟩ := x
      intro s hv
      have hnd := hv (n, d, p, t) (List.mem_cons_self _ _)
      have hstep :
          (addItem t (inputPrioridade p (inputDescricao d (inputNome n s)))).items
            = s.items ++ [{ id := s.items.length + 1, nome := n, descricao := d,
                            data_criacao := t, data_modificacao := none,
                            prioridade := p }] := by
        simp [addItem, clearForm, runValidate, newItemOf, validateResult,
              inputNome, inputDescricao, inputPrioridade, hnd.1, hnd.2]
      rw [runAdds, ih _ (fun y hy => hv y (List.mem_cons_of_mem _ hy)), hstep]
      simp [addedItems, List.append_assoc]

/-- Claim C2 (confirmed): starting from an empty collection, after `n`
successful adds (valid forms, no deletions) the `k`-th added item (0-based
index `k`) has `id = k + 1` and no `data_modificacao`; each successful add
appends exactly one item, with `id = current collection size + 1`, at the end
of the collection, and leaves `data_modificacao` absent. -/
theorem runAdds_assigns_sequential_ids
    (inputs : List (String × String × Priority × Nat)) (s0 : AppState)
    (h0 : s0.items = [])
    (hv : ∀ x ∈ inputs, 3 ≤ x.1.length ∧ 3 ≤ x.2.1.length) :
    ((runAdds inputs s0).items.length = inputs.length) ∧
    (∀ k it, (runAdds inputs s0).items[k]? = some it →
       it.id = k + 1 ∧ it.data_modificacao = none) ∧
    (∀ (now : Nat) (s : AppState), (addItem now s).items =
       (if validateResult s.form = true then
         s.items ++ [{ id := s.items.length + 1, nome := s.form.nome,
                       descricao := s.form.descricao, data_criacao := now,
                       data_modificacao := none,
                       prioridade := s.form.prioridade }]
        else s.items)) := by
  have hitems : (runAdds inputs s0).items = addedItems 0 inputs := by
    rw [runAdds_items inputs s0 hv, h0]
    rfl
  refine ⟨?_, ?_, ?_⟩
  · rw [hitems, addedItems_length]
  · intro k it h
    rw [hitems] at h
    have := addedItems_getElem? inputs 0 k it h
    simpa using this
  · intro now s
    by_cases h : validateResult s.form = true
    · simp [addItem, h, clearForm, runValidate, newItemOf]
    · have hf : validateResult s.form = false := by simpa using h
      simp [addItem, hf, runValidate]

/-- Empty starting state for the C2 witness. -/
def exSt2 : AppState :=
  { items := []
    form := { nome := "", descricao := "", prioridade := Priority.baixa,
              editId := none, isValid := true }
    currentPage := 1, filterPriority := none, sortOrder := SortOrder.asc,
    activeFilter := ActiveFilter.priority, searchName := "", showModal := false }

/-- Inputs for the C2 witness: two valid adds. -/
def exInputs2 : List (String × String × Priority × Nat) :=
  [("abc", "defg", Priority.baixa, 0), ("ghi", "jklm", Priority.alta, 1)]

theorem runAdds_assigns_sequential_ids_witness :
    (runAdds exInputs2 exSt2).items.length = 2 ∧
    (∀ it, (runAdds exInputs2 exSt2).items[1]? = some it →
       it.id = 2 ∧ it.data_modificacao = none) := by
  have h := runAdds_assigns_sequential_ids exInputs2 exSt2 rfl (by decide)
  exact ⟨h.1, fun it hit => h.2.1 1 it hit⟩

/-- Claim C3 (confirmed): for a valid form, `updateItem` leaves every item's
`id` and `data_criacao` unchanged; position `k` of the collection is rewritten
to carry the form's `nome`/`descricao`/`prioridade` and `data_modificacao =
now` exactly when `editId` is present and equals that item's id, and is left
untouched otherwise (in particular the whole collection is untouched when
`editId` is `null` or matches no item); and under a monotone clock (every
item created at or before `now`) any item stamped `data_modificacao = now`
has `data_criacao ≤ now`, i.e. `modifiedAt ≥ createdAt`. -/
theorem updateItem_rewrites_only_target (now : Nat) (s : AppState)
    (hval : validateResult s.form = true)
    (hclock : ∀ it ∈ s.items, it.data_criacao ≤ now) :
    ((updateItem now s).items.map Item.id = s.items.map Item.id) ∧
    ((updateItem now s).items.map Item.data_criacao
        = s.items.map Item.data_criacao) ∧
    (∀ (k : Nat) (it : Item), s.items[k]? = some it →
       (updateItem now s).items[k]? = some
         (match s.form.editId with
          | none => it
          | some e =>
              if it.id = e then
                { it with nome := s.form.nome, descricao := s.form.descricao,
                          prioridade := s.form.prioridade,
                          data_modificacao := some now }
              else it)) ∧
    (∀ it ∈ (updateItem now s).items,
       it.data_modificacao = some now → it.data_criacao ≤ now) := by
  cases he : s.form.editId with
  | none =>
      have hitems : (updateItem now s).items = s.items := by
        simp [updateItem, hval, he, runValidate]
      refine ⟨by rw [hitems], by rw [hitems], ?_, ?_⟩
      · intro k it h
        rw [hitems, h]
      · intro it hmem _
        exact hclock it (hitems ▸ hmem)
  | some e =>
      have hitems : (updateItem now s).items = s.items.map (applyEdit now s.form e) := by
        simp [updateItem, hval, he, clearForm, runValidate]
      have hid : ∀ it : Item, (applyEdit now s.form e it).id = it.id := by
        intro it
        unfold applyEdit
        split <;> rfl
      have hcr : ∀ it : Item, (applyEdit now s.form e it).data_criacao = it.data_criacao := by
        intro it
        unfold applyEdit
        split <;> rfl
      refine ⟨?_, ?_, ?_, ?_⟩
      · rw [hitems, List.map_map]
        exact List.map_congr_left (fun it _ => hid it)
      · rw [hitems, List.map_map]
        exact List.map_congr_left (fun it _ => hcr it)
      · intro k it h
        rw [hitems, List.getElem?_map, h]
        unfold applyEdit
        rfl
      · intro it hmem _
        rw [hitems] at hmem
        obtain ⟨it0, hit0, heq⟩ := List.mem_map.mp hmem
        have := hclock it0 hit0
        rw [← heq, hcr it0]
        exact this

/-- Concrete state for the C3 witness: one item with id 1 created at time 3,
a valid form targeting id 1, clock at 7. -/
def exSt3 : AppState :=
  { items := [{ id := 1, nome := "old", descricao := "olddesc",
                data_criacao := 3, data_modificacao := none,
                prioridade := Priority.baixa }]
    form := { nome := "abc", descricao := "defg", prioridade := Priority.alta,
              editId := some 1, isValid := false }
    currentPage := 1, filterPriority := none, sortOrder := SortOrder.asc,
    activeFilter := ActiveFilter.priority, searchName := "", showModal := true }

theorem updateItem_rewrites_only_target_witness :
    validateResult exSt3.form = true ∧
    (∀ it ∈ exSt3.items, it.data_criacao ≤ 7) ∧
    ((updateItem 7 exSt3).items.map Item.id = exSt3.items.map Item.id ∧
     (updateItem 7 exSt3).items.map Item.data_criacao
        = exSt3.items.map Item.data_criacao ∧
     (∀ (k : Nat) (it : Item), exSt3.items[k]? = some it →
        (updateItem 7 exSt3).items[k]? = some
          (match exSt3.form.editId with
           | none => it
           | some e =>
               if it.id = e then
                 { it with nome := exSt3.form.nome,
                           descricao := exSt3.form.descricao,
                           prioridade := exSt3.form.prioridade,
                           data_modificacao := some 7 }
               else it)) ∧
     (∀ it ∈ (updateItem 7 exSt3).items,
        it.data_modificacao = some 7 → it.data_criacao ≤ 7)) :=
  ⟨by decide, by decide,
   updateItem_rewrites_only_target 7 exSt3 (by decide) (by decide)⟩

theorem length_filter_id_split (i : Nat) (l : List Item) :
    (l.filter (fun it => it.id != i)).length
      + (l.filter (fun it => it.id == i)).length = l.length := by
  induction l with
  | nil => rfl
  | cons x xs ih =>
      by_cases h : x.id = i <;> simp [List.filter_cons, h, ih] <;> omega

/-- Claim C9 (confirmed): when several items share an id (reachable because
ids are assigned from the current collection length), `deleteItem` removes
every item whose id equals the argument — none survives, exactly the
matching ones are gone, and every non-matching item survives — and a valid
`updateItem` targeting that id rewrites the fields and `data_modificacao` of
every matching item, not just one. -/
theorem deleteItem_updateItem_hit_all_duplicates (now : Nat) (s : AppState)
    (i : Nat)
    (hdup : 2 ≤ (s.items.filter (fun it => it.id == i)).length)
    (hval : validateResult s.form = true)
    (heid : s.form.editId = some i) :
    ((deleteItem s i).items.filter (fun it => it.id == i) = [] ∧
     (deleteItem s i).items.length
        + (s.items.filter (fun it => it.id == i)).length = s.items.length ∧
     (∀ it ∈ s.items, it.id ≠ i → it ∈ (deleteItem s i).items)) ∧
    (∀ (k : Nat) (it : Item), s.items[k]? = some it → it.id = i →
       (updateItem now s).items[k]? = some
         { it with nome := s.form.nome, descricao := s.form.descricao,
                   prioridade := s.form.prioridade,
                   data_modificacao := some now }) := by
  refine ⟨⟨?_, ?_, ?_⟩, ?_⟩
  · rw [deleteItem, List.filter_filter]
    refine List.filter_eq_nil_iff.mpr ?_
    intro a _
    by_cases h : a.id = i <;> simp [h]
  · exact length_filter_id_split i s.items
  · intro it hmem hne
    refine List.mem_filter.mpr ⟨hmem, ?_⟩
    simpa using hne
  · intro k it h hid
    have hitems :
        (updateItem now s).items = s.items.map (applyEdit now s.form i) := by
      simp [updateItem, hval, heid, clearForm, runValidate]
    rw [hitems, List.getElem?_map, h]
    simp [applyEdit, hid]

/-- Concrete state for the C9 witness: two items that both carry id 2
(obtainable by add, add, add, delete(1), delete(1) … per the length-based id
rule), and a valid form targeting id 2. -/
def exSt9 : AppState :=
  { items := [{ id := 2, nome := "aaa", descricao := "bbb", data_criacao := 0,
                data_modificacao := none, prioridade := Priority.baixa },
              { id := 2, nome := "ccc", descricao := "ddd", data_criacao := 1,
                data_modificacao := none, prioridade := Priority.alta }]
    form := { nome := "new", descricao := "newd", prioridade := Priority.media,
              editId := some 2, isValid := true }
    currentPage := 1, filterPriority := none, sortOrder := SortOrder.asc,
    activeFilter := ActiveFilter.priority, searchName := "", showModal := true }

theorem deleteItem_updateItem_hit_all_duplicates_witness :
    (2 ≤ (exSt9.items.filter (fun it => it.id == 2)).length ∧
     validateResult exSt9.form = true ∧ exSt9.form.editId = some 2) ∧
    ((deleteItem exSt9 2).items.filter (fun it => it.id == 2) = [] ∧
     (deleteItem exSt9 2).items.length
        + (exSt9.items.filter (fun it => it.id == 2)).length
        = exSt9.items.length ∧
     (∀ it ∈ exSt9.items, it.id ≠ 2 → it ∈ (deleteItem exSt9 2).items)) ∧
    (∀ (k : Nat) (it : Item), exSt9.items[k]? = some it → it.id = 2 →
       (updateItem 6 exSt9).items[k]? = some
         { it with nome := exSt9.form.nome, descricao := exSt9.form.descricao,
                   prioridade := exSt9.form.prioridade,
                   data_modificacao := some 6 }) :=
  ⟨⟨by decide, by decide, by decide⟩,
   (deleteItem_updateItem_hit_all_duplicates 6 exSt9 2
      (by decide) (by decide) (by decide)).1,
   (deleteItem_updateItem_hit_all_duplicates 6 exSt9 2
      (by decide) (by decide) (by decide)).2⟩

theorem ceil_div_ten_eq (n : Nat) :
    Int.ceil ((n : ℚ) / 10) = ((n + 9) / 10 : Nat) := by
  have hdm := Nat.div_add_mod (n + 9) 10
  have hmlt : (n + 9) % 10 < 10 := Nat.mod_lt _ (by norm_num)
  have hub : n ≤ ((n + 9) / 10) * 10 := by omega
  have hlb : ((n + 9) / 10) * 10 < n + 10 := by omega
  have h1 : (n : ℚ) / 10 ≤ (((n + 9) / 10 : Nat) : ℚ) := by
    rw [div_le_iff₀ (by norm_num : (0:ℚ) < 10)]
    exact_mod_cast hub
  have h2 : (((n + 9) / 10 : Nat) : ℚ) - 1 < (n : ℚ) / 10 := by
    rw [lt_div_iff₀ (by norm_num : (0:ℚ) < 10)]
    have hq : ((((n + 9) / 10 : Nat) : ℚ)) * 10 < (n : ℚ) + 10 := by
      exact_mod_cast hlb
    linarith
  rw [Int.ceil_eq_iff]
  constructor
  · rw [Int.cast_natCast]
    exact h2
  · rw [Int.cast_natCast]
    exact h1

/-- Trivial locale comparator used for the concrete view states (the claims
settled on them never reach the name sort). -/
def lc0 : String → String → Int := fun _ _ => 0

/-- Concrete state for the C4 counterexample: nothing matches the filter
(`items` is empty), page 1. -/
def exSt4 : AppState :=
  { items := []
    form := { nome := "", descricao := "", prioridade := Priority.baixa,
              editId := none, isValid := true }
    currentPage := 1, filterPriority := none, sortOrder := SortOrder.asc,
    activeFilter := ActiveFilter.priority, searchName := "", showModal := false }

/-- Claim C4 (counterexample): with zero filtered items the code computes
`totalPages = Math.ceil(0/10) = 0`, not the claimed minimum of 1; page 1
still yields the empty slice. -/
theorem totalPages_zero_items_is_zero_not_one :
    (filteredItems lc0 exSt4).length = 0 ∧
    totalPages lc0 exSt4 = 0 ∧
    ¬(totalPages lc0 exSt4 = 1) ∧
    currentItems lc0 exSt4 = [] := by
  have h : filteredItems lc0 exSt4 = [] := rfl
  have htp : totalPages lc0 exSt4 = 0 := by
    rw [totalPages, h]
    norm_num
  refine ⟨by rw [h]; rfl, htp, by rw [htp]; decide, by rw [currentItems, h]; rfl⟩

/-- Claim C4 (amended, confirmed): `totalPages = ceil(f/10)` exactly, with no
1-page minimum: for `f = 0` the code yields `totalPages = 0` (not 1), and
page 1 still returns an empty slice. -/
theorem totalPages_eq_ceil_no_minimum (lc : String → String → Int)
    (s : AppState) :
    totalPages lc s = (((filteredItems lc s).length + 9) / 10 : Nat) ∧
    ((filteredItems lc s).length = 0 → totalPages lc s = 0) ∧
    (s.currentPage = 1 → (filteredItems lc s).length = 0 →
       currentItems lc s = []) := by
  have hceil : totalPages lc s = (((filteredItems lc s).length + 9) / 10 : Nat) :=
    ceil_div_ten_eq _
  refine ⟨hceil, ?_, ?_⟩
  · intro h
    rw [hceil, h]
    norm_num
  · intro hp h
    have hnil : filteredItems lc s = [] := List.length_eq_zero.mp h
    rw [currentItems, hnil, hp]
    rfl

theorem totalPages_eq_ceil_no_minimum_witness :
    totalPages lc0 exSt4 = ((filteredItems lc0 exSt4).length + 9) / 10 ∧
    totalPages lc0 exSt4 = 0 ∧
    exSt4.currentPage = 1 ∧
    currentItems lc0 exSt4 = [] := by
  have h := totalPages_eq_ceil_no_minimum lc0 exSt4
  exact ⟨by exact_mod_cast h.1, h.2.1 rfl, rfl, h.2.2 rfl rfl⟩

theorem insertCmp_perm (cmp : Item → Item → Int) (x : Item) (l : List Item) :
    List.Perm (insertCmp cmp x l) (x :: l) := by
  induction l with
  | nil => simp [insertCmp]
  | cons y ys ih =>
      simp only [insertCmp]
      split
      · exact List.Perm.refl _
      · exact (ih.cons y).trans (List.Perm.swap x y ys)

theorem sortCmp_perm (cmp : Item → Item → Int) (l : List Item) :
    List.Perm (sortCmp cmp l) l := by
  induction l with
  | nil => exact List.Perm.refl _
  | cons x xs ih => exact (insertCmp_perm cmp x _).trans (ih.cons x)

/-- Item for the C5 counterexample. -/
def exItem5 : Item :=
  { id := 1, nome := "abc", descricao := "desc one", data_criacao := 0,
    data_modificacao := none, prioridade := Priority.baixa }

/-- Concrete state for the C5 counterexample: `activeFilter = priority`, no
priority filter value, but a stale non-empty name search left over from the
name mode. -/
def exSt5 : AppState :=
  { items := [exItem5]
    form := { nome := "", descricao := "", prioridade := Priority.baixa,
              editId := none, isValid := true }
    currentPage := 1, filterPriority := none, sortOrder := SortOrder.asc,
    activeFilter := ActiveFilter.priority, searchName := "zzz",
    showModal := false }

/-- Claim C5 (counterexample): with `activeFilter = priority` and no priority
filter set, a stale non-empty `searchName` still empties the view — while
clearing `searchName` restores the item — so the inactive mode's setting does
affect the result, refuting "only the active filter mode's predicate is
applied". -/
theorem inactive_searchName_still_filters :
    exSt5.activeFilter = ActiveFilter.priority ∧
    ¬(exSt5.searchName = "") ∧
    filteredItems lc0 exSt5 = [] ∧
    filteredItems lc0 { exSt5 with searchName := "" } = [exItem5] := by
  exact ⟨rfl, by decide, by decide, by decide⟩

/-- Claim C5 (amended, confirmed): which items the view keeps never depends
on `activeFilter`: the priority-equality predicate and the case-insensitive
name-substring predicate are BOTH applied on every render (each trivially
true when its control value is unset); `activeFilter` only selects which
sort, if any, is applied to the surviving items. -/
theorem filteredItems_mem_iff_both_predicates (lc : String → String → Int)
    (s : AppState) (it : Item) :
    it ∈ filteredItems lc s ↔
      (it ∈ s.items ∧ priorityPred s.filterPriority it = true ∧
       namePred s.searchName it = true) := by
  have hmem : ∀ l : List Item, it ∈ l.filter (combinedPred s) ↔
      (it ∈ l ∧ priorityPred s.filterPriority it = true ∧
       namePred s.searchName it = true) := by
    intro l
    simp [List.mem_filter, combinedPred, Bool.and_eq_true, and_assoc]
  cases haf : s.activeFilter <;>
    simp only [filteredItems, haf] <;>
    simp only [reduceCtorEq, if_false, if_true, reduceIte] <;>
    first
      | exact hmem s.items
      | rw [(sortCmp_perm _ _).mem_iff]
        exact hmem s.items

theorem dateCmp_le_of_eq_key (ord : SortOrder) :
    ∀ a b : Item, a.data_criacao = b.data_criacao → dateCmp ord a b ≤ 0 := by
  intro a b h
  cases ord <;> simp [dateCmp, h]

theorem filter_key_insertCmp (cmp : Item → Item → Int) (t : Nat)
    (hc : ∀ a b : Item, a.data_criacao = b.data_criacao → cmp a b ≤ 0)
    (x : Item) (l : List Item) :
    (insertCmp cmp x l).filter (fun z => z.data_criacao == t) =
      if x.data_criacao == t
      then x :: l.filter (fun z => z.data_criacao == t)
      else l.filter (fun z => z.data_criacao == t) := by
  induction l with
  | nil =>
      by_cases hx : (x.data_criacao == t) = true <;>
        simp [insertCmp, List.filter_cons, hx]
  | cons y ys ih =>
      by_cases hxy : cmp x y ≤ 0
      · simp only [insertCmp, if_pos hxy]
        by_cases hx : (x.data_criacao == t) = true <;>
          simp [List.filter_cons, hx]
      · simp only [insertCmp, if_neg hxy, List.filter_cons]
        by_cases hy : (y.data_criacao == t) = true
        · by_cases hx : (x.data_criacao == t) = true
          · exfalso
            apply hxy
            apply hc
            have h1 : x.data_criacao = t := by simpa using hx
            have h2 : y.data_criacao = t := by simpa using hy
            rw [h1, h2]
          · simp [hx, hy, ih]
        · by_cases hx : (x.data_criacao == t) = true <;> simp [hx, hy, ih]

theorem filter_key_sortCmp (cmp : Item → Item → Int) (t : Nat)
    (hc : ∀ a b : Item, a.data_criacao = b.data_criacao → cmp a b ≤ 0)
    (l : List Item) :
    (sortCmp cmp l).filter (fun z => z.data_criacao == t) =
      l.filter (fun z => z.data_criacao == t) := by
  induction l with
  | nil => rfl
  | cons x xs ih =>
      rw [show sortCmp cmp (x :: xs) = insertCmp cmp x (sortCmp cmp xs) from rfl,
          filter_key_insertCmp cmp t hc x (sortCmp cmp xs), ih, List.filter_cons]

/-- Claim C7 (confirmed): in date mode the sort is stable — for any creation
timestamp `t`, the subsequence of the view's output formed by the items
created at `t` is exactly the subsequence of the stored collection formed by
the kept items created at `t`, in the stored order; this holds for both
`sortOrder` values. -/
theorem dateSort_stable_on_equal_createdAt (lc : String → String → Int)
    (s : AppState) (t : Nat) (hd : s.activeFilter = ActiveFilter.date) :
    (filteredItems lc s).filter (fun z => z.data_criacao == t) =
      s.items.filter (fun z => combinedPred s z && z.data_criacao == t) := by
  have hpipe : filteredItems lc s
      = sortCmp (dateCmp s.sortOrder) (s.items.filter (combinedPred s)) := by
    simp [filteredItems, hd]
  rw [hpipe, filter_key_sortCmp _ t (dateCmp_le_of_eq_key s.sortOrder),
      List.filter_filter]
  refine List.filter_congr ?_
  intro a _
  exact Bool.and_comm _ _

/-- Concrete state for the C6 witness: one item with id 2; id 5 is absent. -/
def exSt6 : AppState :=
  { items := [{ id := 2, nome := "aaa", descricao := "bbb", data_criacao := 0,
                data_modificacao := none, prioridade := Priority.media }]
    form := { nome := "", descricao := "", prioridade := Priority.baixa,
              editId := none, isValid := true }
    currentPage := 1, filterPriority := none, sortOrder := SortOrder.asc,
    activeFilter := ActiveFilter.priority, searchName := "", showModal := false }

theorem deleteItem_idempotent_and_absent_noop_witness :
    deleteItem (deleteItem exSt6 5) 5 = deleteItem exSt6 5 ∧
    deleteItem exSt6 5 = exSt6 :=
  ⟨(deleteItem_idempotent_and_absent_noop exSt6 5).1,
   (deleteItem_idempotent_and_absent_noop exSt6 5).2 (by decide)⟩

/-- Concrete state for the C7 witness: date mode, descending order, two items
with the same `data_criacao`. -/
def exSt7 : AppState :=
  { items := [{ id := 1, nome := "bbb", descricao := "first", data_criacao := 5,
                data_modificacao := none, prioridade := Priority.baixa },
              { id := 2, nome := "aaa", descricao := "second", data_criacao := 5,
                data_modificacao := none, prioridade := Priority.alta }]
    form := { nome := "", descricao := "", prioridade := Priority.baixa,
              editId := none, isValid := true }
    currentPage := 1, filterPriority := none, sortOrder := SortOrder.desc,
    activeFilter := ActiveFilter.date, searchName := "", showModal := false }

theorem dateSort_stable_on_equal_createdAt_witness :
    exSt7.activeFilter = ActiveFilter.date ∧
    (filteredItems lc0 exSt7).filter (fun z => z.data_criacao == 5) =
      exSt7.items.filter (fun z => combinedPred exSt7 z && z.data_criacao == 5) :=
  ⟨rfl, dateSort_stable_on_equal_createdAt lc0 exSt7 5 rfl⟩

end CrudApp
